import Mathlib

/-!
Verification of the retrieval-augmented personalization pipeline of the
medical-chatbot backend (python_backend).  Python functions are shallowly
embedded as Lean definitions; Python strings whose character structure
matters are modelled as lists of characters, Python floats as rationals,
raised exceptions as `Except.error`, and `None` as `Option.none`.
External collaborators (the sentence-transformers / OpenAI encoders and the
PostgreSQL similarity queries) are passed in as oracle functions.
-/

/-- Python strings, modelled as lists of characters where the character
structure matters (slicing, stripping, splitting). -/
abbrev PyStr := List Char

/-- Embedding vectors: lists of rationals (exact model of Python floats). -/
abbrev EVec := List ℚ

/-! ## Chat message normalization (services/perplexity.py, call_perplexity) -/

/-- A chat message as passed to the external model: a role and a content. -/
structure Msg where
  role : String
  content : String
  deriving DecidableEq, Repr

/-- Two messages have distinct roles (the adjacent-entry relation used by the
role-alternation invariant). -/
def roleNe (a b : Msg) : Prop := a.role ≠ b.role

instance : DecidableRel roleNe := fun a b =>
  inferInstanceAs (Decidable (a.role ≠ b.role))

/-- One step of the duplicate-role merge loops in call_perplexity
(services/perplexity.py): if the most recent accumulated message and the
incoming message should merge, the incoming content is appended after a
newline, otherwise the incoming message is pushed.  The accumulator is kept
in reverse order (most recent message first). -/
def mergeAdjStep (shouldMerge : Msg → Msg → Bool) (acc : List Msg) (msg : Msg) :
    List Msg :=
  match acc with
  | [] => [msg]
  | last :: rest =>
    if shouldMerge last msg then
      { role := last.role, content := last.content ++ "\n" ++ msg.content } :: rest
    else
      msg :: last :: rest

/-- A full duplicate-role merge pass over a message list. -/
def mergeAdj (shouldMerge : Msg → Msg → Bool) (msgs : List Msg) : List Msg :=
  (msgs.foldl (mergeAdjStep shouldMerge) []).reverse

/-- First normalization pass of call_perplexity (perplexity.py lines
200-206): merge consecutive messages sharing a role, except system
messages. -/
def mergeConsecutive : List Msg → List Msg :=
  mergeAdj (fun last cur => last.role == cur.role && !(cur.role == "system"))

/-- Second normalization pass of call_perplexity (perplexity.py lines
214-223): merge any consecutive messages sharing a role. -/
def ensureAlternating : List Msg → List Msg :=
  mergeAdj (fun last cur => last.role == cur.role)

/-- The normalized message sequence built by call_perplexity before the
external model call (perplexity.py lines 200-223): merge consecutive
same-role messages, drop system messages, prepend the freshly built system
prompt, then re-merge to ensure alternation. -/
def normalizeMessages (systemPrompt : String) (messages : List Msg) : List Msg :=
  ensureAlternating
    ({ role := "system", content := systemPrompt } ::
      (mergeConsecutive messages).filter (fun m => m.role != "system"))

/-- The second merge pass keeps the bottom system message at the bottom,
keeps every other accumulated message non-system, and preserves adjacent-role
distinctness, provided each incoming message is non-system. -/
lemma foldl_mergeAdjStep_system (sys0 : Msg) (hsys : sys0.role = "system") :
    ∀ (curs : List Msg), (∀ m ∈ curs, m.role ≠ "system") →
    ∀ (mid : List Msg), (∀ m ∈ mid, m.role ≠ "system") →
    List.Chain' roleNe (mid ++ [sys0]) →
    ∃ mid2,
      curs.foldl (mergeAdjStep (fun last cur => last.role == cur.role))
          (mid ++ [sys0]) = mid2 ++ [sys0] ∧
      (∀ m ∈ mid2, m.role ≠ "system") ∧
      List.Chain' roleNe (mid2 ++ [sys0]) := by
  intro curs
  induction curs with
  | nil =>
    intro _ mid hmid hchain
    exact ⟨mid, rfl, hmid, hchain⟩
  | cons cur rest ih =>
    intro hcurs mid hmid hchain
    have hcur : cur.role ≠ "system" := hcurs cur (List.mem_cons_self _ _)
    have hrest : ∀ m ∈ rest, m.role ≠ "system" := fun m hm =>
      hcurs m (List.mem_cons_of_mem _ hm)
    rw [List.foldl_cons]
    cases mid with
    | nil =>
      have hstep : mergeAdjStep (fun last cur => last.role == cur.role)
          ([] ++ [sys0]) cur = [cur] ++ [sys0] := by
        simp only [List.nil_append, mergeAdjStep]
        have : (sys0.role == cur.role) = false := by
          simp only [beq_eq_false_iff_ne]
          rw [hsys]
          exact fun h => hcur h.symm
        simp [this]
      rw [hstep]
      refine ih hrest [cur] ?_ ?_
      · intro m hm
        rcases List.mem_singleton.mp hm with rfl
        exact hcur
      · refine List.chain'_cons.mpr ⟨?_, List.chain'_singleton _⟩
        show cur.role ≠ sys0.role
        rw [hsys]; exact hcur
    | cons h t =>
      by_cases hmerge : h.role = cur.role
      · have hstep : mergeAdjStep (fun last cur => last.role == cur.role)
            ((h :: t) ++ [sys0]) cur
            = ({ role := h.role, content := h.content ++ "\n" ++ cur.content } :: t)
              ++ [sys0] := by
          simp only [List.cons_append, mergeAdjStep]
          simp [hmerge]
        rw [hstep]
        refine ih hrest
          ({ role := h.role, content := h.content ++ "\n" ++ cur.content } :: t) ?_ ?_
        · intro m hm
          rcases List.mem_cons.mp hm with rfl | hm
          · exact hmid h (List.mem_cons_self _ _)
          · exact hmid m (List.mem_cons_of_mem _ hm)
        · have hchain' := hchain
          rw [List.cons_append, List.chain'_cons'] at hchain' ⊢
          exact ⟨fun y hy => hchain'.1 y hy, hchain'.2⟩
      · have hstep : mergeAdjStep (fun last cur => last.role == cur.role)
            ((h :: t) ++ [sys0]) cur = (cur :: h :: t) ++ [sys0] := by
          simp only [List.cons_append, mergeAdjStep]
          have : (h.role == cur.role) = false := beq_eq_false_iff_ne.mpr hmerge
          simp [this]
        rw [hstep]
        refine ih hrest (cur :: h :: t) ?_ ?_
        · intro m hm
          rcases List.mem_cons.mp hm with rfl | hm
          · exact hcur
          · exact hmid m hm
        · simp only [List.cons_append] at hchain ⊢
          refine List.chain'_cons.mpr ⟨?_, hchain⟩
          show cur.role ≠ h.role
          exact fun he => hmerge he.symm

/-- C1: for every history and system prompt, the normalized message sequence
built by call_perplexity before the external model call has role system as
its first entry and no two adjacent entries share a role. -/
theorem normalizeMessages_system_first_alternating
    (systemPrompt : String) (messages : List Msg) :
    (normalizeMessages systemPrompt messages).head?.map Msg.role = some "system" ∧
    List.Chain' roleNe (normalizeMessages systemPrompt messages) := by
  unfold normalizeMessages ensureAlternating mergeAdj
  set sys0 : Msg := { role := "system", content := systemPrompt } with hsys0
  set curs : List Msg :=
    (mergeConsecutive messages).filter (fun m => m.role != "system") with hcurs
  have hcursne : ∀ m ∈ curs, m.role ≠ "system" := by
    intro m hm
    have := List.of_mem_filter hm
    simpa [bne_iff_ne] using this
  have hfold : (sys0 :: curs).foldl
      (mergeAdjStep (fun last cur => last.role == cur.role)) []
      = curs.foldl (mergeAdjStep (fun last cur => last.role == cur.role))
          ([] ++ [sys0]) := by
    rw [List.foldl_cons]
    rfl
  rw [hfold]
  obtain ⟨mid2, heq, -, hchain⟩ :=
    foldl_mergeAdjStep_system sys0 rfl curs hcursne [] (by simp)
      (by simp [List.chain'_singleton])
  rw [heq]
  constructor
  · rw [List.reverse_append, List.reverse_singleton]
    rfl
  · have : List.Chain' (flip roleNe) (mid2 ++ [sys0]) :=
      hchain.imp fun _ _ h => Ne.symm h
    exact (List.chain'_reverse).mpr this

/-- If the merge predicate only fires on equal roles, a merge pass over a
sequence whose adjacent roles are distinct just reverses onto the
accumulator. -/
lemma foldl_mergeAdjStep_no_merge (shouldMerge : Msg → Msg → Bool)
    (hsm : ∀ a b, shouldMerge a b = true → a.role = b.role) :
    ∀ (l acc : List Msg), List.Chain' roleNe l →
    (∀ a ∈ acc.head?, ∀ m ∈ l.head?, a.role ≠ m.role) →
    l.foldl (mergeAdjStep shouldMerge) acc = l.reverse ++ acc := by
  intro l
  induction l with
  | nil => intro acc _ _; simp
  | cons m rest ih =>
    intro acc hchain hhead
    have hstep : mergeAdjStep shouldMerge acc m = m :: acc := by
      cases acc with
      | nil => rfl
      | cons a t =>
        have hne : a.role ≠ m.role := hhead a rfl m rfl
        have : shouldMerge a m = false := by
          cases hsm' : shouldMerge a m with
          | false => rfl
          | true => exact absurd (hsm a m hsm') hne
        simp [mergeAdjStep, this]
    rw [List.foldl_cons, hstep]
    have hchain' := List.chain'_cons'.mp hchain
    rw [ih (m :: acc) hchain'.2 ?_]
    · rw [List.reverse_cons, List.append_assoc]
      rfl
    · intro a ha m' hm'
      rcases Option.some.inj ha with rfl
      exact hchain'.1 m' hm'

/-- A merge pass leaves a sequence with pairwise-distinct adjacent roles
unchanged (for a merge predicate that only fires on equal roles). -/
lemma mergeAdj_eq_self (shouldMerge : Msg → Msg → Bool)
    (hsm : ∀ a b, shouldMerge a b = true → a.role = b.role)
    (l : List Msg) (hl : List.Chain' roleNe l) :
    mergeAdj shouldMerge l = l := by
  unfold mergeAdj
  rw [foldl_mergeAdjStep_no_merge shouldMerge hsm l [] hl (by simp)]
  simp

/-- C3 counterexample: a sequence satisfying the claimed normal form (leading
system entry, no two adjacent entries of equal role) that normalization does
not fix: the interior system entry is dropped. -/
theorem normalizeMessages_not_idempotent_on_claimed_form :
    (([⟨"system", "p"⟩, ⟨"user", "a"⟩, ⟨"system", "b"⟩] : List Msg).head?.map Msg.role
        = some "system") ∧
    List.Chain' roleNe
      ([⟨"system", "p"⟩, ⟨"user", "a"⟩, ⟨"system", "b"⟩] : List Msg) ∧
    normalizeMessages "p" [⟨"system", "p"⟩, ⟨"user", "a"⟩, ⟨"system", "b"⟩]
      ≠ [⟨"system", "p"⟩, ⟨"user", "a"⟩, ⟨"system", "b"⟩] := by
  refine ⟨rfl, ?_, by decide⟩
  refine List.chain'_cons.mpr ⟨?_, List.chain'_cons.mpr ⟨?_, List.chain'_singleton _⟩⟩
  · show ("system" : String) ≠ "user"
    decide
  · show ("user" : String) ≠ "system"
    decide

/-- C3 (amended): normalization is idempotent on sequences in the claimed
normal form that additionally contain no system entry after the first:
re-normalizing with the leading system content as prompt is the identity. -/
theorem normalizeMessages_idempotent (systemPrompt : String) (rest : List Msg)
    (hrest : ∀ m ∈ rest, m.role ≠ "system")
    (hchain : List.Chain' roleNe
      ({ role := "system", content := systemPrompt } :: rest)) :
    normalizeMessages systemPrompt
        ({ role := "system", content := systemPrompt } :: rest)
      = { role := "system", content := systemPrompt } :: rest := by
  set sys0 : Msg := { role := "system", content := systemPrompt } with hsys0
  have hmc : mergeConsecutive (sys0 :: rest) = sys0 :: rest := by
    refine mergeAdj_eq_self _ ?_ _ hchain
    intro a b h
    have := Bool.and_elim_left h
    exact beq_iff_eq.mp this
  have hfilter : (sys0 :: rest).filter (fun m => m.role != "system") = rest := by
    rw [List.filter_cons]
    have h1 : (sys0.role != "system") = false := by
      simp [hsys0]
    rw [h1]
    simp only [if_neg Bool.false_ne_true]
    exact List.filter_eq_self.mpr fun m hm => bne_iff_ne.mpr (hrest m hm)
  unfold normalizeMessages
  rw [hmc, hfilter]
  exact mergeAdj_eq_self _ (fun a b h => beq_iff_eq.mp h) _ hchain

/-- Witness for the amended C3 theorem at a concrete normalized sequence. -/
theorem normalizeMessages_idempotent_witness :
    normalizeMessages "p" [⟨"system", "p"⟩, ⟨"user", "a"⟩, ⟨"assistant", "b"⟩]
      = [⟨"system", "p"⟩, ⟨"user", "a"⟩, ⟨"assistant", "b"⟩] :=
  normalizeMessages_idempotent "p" [⟨"user", "a"⟩, ⟨"assistant", "b"⟩]
    (by decide)
    (List.chain'_cons.mpr ⟨by decide, List.chain'_cons.mpr
      ⟨by decide, List.chain'_singleton _⟩⟩)

/-! ## Embedding input truncation (services/embedding_service.py) -/

/-- LOCAL mode max_tokens (embedding_service.py, MODES dictionary). -/
def localMaxTokens : Nat := 512

/-- OPENAI mode max_tokens (embedding_service.py, MODES dictionary). -/
def openaiMaxTokens : Nat := 8191

/-- The text handed to the underlying sentence-transformers encoder by
EmbeddingService._generate_local: the input is forwarded unchanged. -/
def localEncoderInput (text : PyStr) : PyStr := text

/-- The text handed to the OpenAI embeddings endpoint by
EmbeddingService._generate_openai: the slice text[: max_tokens * 4]. -/
def openaiEncoderInput (text : PyStr) : PyStr := text.take (openaiMaxTokens * 4)

/-- C2 counterexample: a 2049-character input in LOCAL mode reaches the
encoder unchanged; it is not truncated to its 2048-character prefix. -/
theorem localEncoderInput_no_truncation :
    localEncoderInput (List.replicate 2049 'a')
      ≠ (List.replicate 2049 'a').take (localMaxTokens * 4) := by
  intro h
  have hlen := congrArg List.length h
  simp only [localEncoderInput, localMaxTokens, List.length_take,
    List.length_replicate] at hlen
  omega

/-- C2 (amended): only the OPENAI path truncates; _generate_openai passes the
32764-character prefix of the input (a prefix, of length min 32764 and the
input length) to the encoder, while _generate_local passes the input
unchanged. -/
theorem encoderInput_truncation (text : PyStr) :
    localEncoderInput text = text ∧
    (openaiEncoderInput text).length = min 32764 text.length ∧
    ∃ t, text = openaiEncoderInput text ++ t := by
  refine ⟨rfl, ?_, ?_⟩
  · show (text.take (openaiMaxTokens * 4)).length = min 32764 text.length
    rw [List.length_take]
    norm_num [openaiMaxTokens]
  · exact ⟨text.drop (openaiMaxTokens * 4), (List.take_append_drop _ _).symm⟩

/-! ## Similarity-search route validation (routes/vector_search.py) -/

/-- Outcome of a similarity-search route up to the delegation point: either
an HTTP 400 client error returned before any delegation, or a delegation to
the similarity-search function with the validated parameters. -/
inductive RouteOutcome where
  | badRequest (msg : String)
  | delegated (matchThreshold : ℚ) (matchCount : ℤ)
  deriving DecidableEq, Repr

/-- routes/vector_search.py, search_memories: request parsing with defaults
(match_threshold 0.7, match_count 5), validation, then delegation.  A JSON
body field that is missing is none; an absent or empty query is falsy. -/
def search_memories (query : Option String) (match_threshold : Option ℚ)
    (match_count : Option ℤ) : RouteOutcome :=
  match query with
  | none => .badRequest "Query text is required"
  | some q =>
    if q = "" then .badRequest "Query text is required"
    else
      let mt := match_threshold.getD (7/10)
      let mc := match_count.getD 5
      if ¬(0 ≤ mt ∧ mt ≤ 1) then
        .badRequest "match_threshold must be between 0 and 1"
      else if ¬(1 ≤ mc ∧ mc ≤ 50) then
        .badRequest "match_count must be between 1 and 50"
      else .delegated mt mc

/-- routes/vector_search.py, search_messages_endpoint: request parsing with
defaults (match_threshold 0.7, match_count 10), validation, then
delegation. -/
def search_messages_endpoint (query : Option String)
    (conversation_id : Option String) (match_threshold : Option ℚ)
    (match_count : Option ℤ) : RouteOutcome :=
  match query with
  | none => .badRequest "Query text is required"
  | some q =>
    if q = "" then .badRequest "Query text is required"
    else
      let _ := conversation_id
      let mt := match_threshold.getD (7/10)
      let mc := match_count.getD 10
      if ¬(0 ≤ mt ∧ mt ≤ 1) then
        .badRequest "match_threshold must be between 0 and 1"
      else if ¬(1 ≤ mc ∧ mc ≤ 100) then
        .badRequest "match_count must be between 1 and 100"
      else .delegated mt mc

/-- C4: on every request whose effective threshold lies outside [0,1] or
whose effective match count lies outside [1,50] (memory search) resp.
[1,100] (message search), the route returns an HTTP 400 client error and
never delegates to the external similarity search. -/
theorem vector_search_validation (query : Option String)
    (conversation_id : Option String) (match_threshold : Option ℚ)
    (match_count : Option ℤ) :
    (¬(0 ≤ match_threshold.getD (7/10) ∧ match_threshold.getD (7/10) ≤ 1) ∨
        ¬(1 ≤ match_count.getD 5 ∧ match_count.getD 5 ≤ 50) →
      ∃ e, search_memories query match_threshold match_count
            = RouteOutcome.badRequest e) ∧
    (¬(0 ≤ match_threshold.getD (7/10) ∧ match_threshold.getD (7/10) ≤ 1) ∨
        ¬(1 ≤ match_count.getD 10 ∧ match_count.getD 10 ≤ 100) →
      ∃ e, search_messages_endpoint query conversation_id match_threshold
            match_count = RouteOutcome.badRequest e) := by
  constructor
  · intro h
    cases query with
    | none => exact ⟨"Query text is required", rfl⟩
    | some q =>
      unfold search_memories
      by_cases hq : q = ""
      · exact ⟨"Query text is required", by simp [hq]⟩
      · rcases h with h | h
        · exact ⟨"match_threshold must be between 0 and 1", by simp [hq, h]⟩
        · by_cases ht : 0 ≤ match_threshold.getD (7/10) ∧
              match_threshold.getD (7/10) ≤ 1
          · exact ⟨"match_count must be between 1 and 50", by simp [hq, ht, h]⟩
          · exact ⟨"match_threshold must be between 0 and 1", by simp [hq, ht]⟩
  · intro h
    cases query with
    | none => exact ⟨"Query text is required", rfl⟩
    | some q =>
      unfold search_messages_endpoint
      by_cases hq : q = ""
      · exact ⟨"Query text is required", by simp [hq]⟩
      · rcases h with h | h
        · exact ⟨"match_threshold must be between 0 and 1", by simp [hq, h]⟩
        · by_cases ht : 0 ≤ match_threshold.getD (7/10) ∧
              match_threshold.getD (7/10) ≤ 1
          · exact ⟨"match_count must be between 1 and 100", by simp [hq, ht, h]⟩
          · exact ⟨"match_threshold must be between 0 and 1", by simp [hq, ht]⟩

/-- Witness for C4: threshold 1.5 is rejected with a 400-style error by both
routes before any delegation. -/
theorem vector_search_validation_witness :
    (∃ e, search_memories (some "headache") (some (3/2)) none
        = RouteOutcome.badRequest e) ∧
    (∃ e, search_messages_endpoint (some "headache") none (some (3/2)) none
        = RouteOutcome.badRequest e) :=
  ⟨(vector_search_validation (some "headache") none (some (3/2)) none).1
      (Or.inl (by norm_num)),
   (vector_search_validation (some "headache") none (some (3/2)) none).2
      (Or.inl (by norm_num))⟩

/-! ## Shared entity records -/

/-- One relationship entry of a memory entity; missing dictionary keys are
none. -/
structure RelEntry where
  type : Option String
  relatedEntity : Option String
  deriving DecidableEq, Repr

/-- Metadata of a memory entity; the code reads the optional keys
description, severity and status. -/
structure MemMetadata where
  description : Option String
  severity : Option String
  status : Option String
  deriving DecidableEq, Repr

/-- A row returned by the PostgreSQL function
search_similar_patient_memories. -/
structure MemoryRow where
  id : String
  user_id : String
  entity_type : String
  entity_name : String
  relationships : Option (List RelEntry)
  metadata : Option MemMetadata
  conversation_id : Option String
  similarity : ℚ
  deriving DecidableEq, Repr

/-- The dictionary built from a memory row by
search_similar_patient_memories (db_operations.py lines 446-456). -/
structure MemoryDict where
  id : String
  userId : String
  entityType : String
  entityName : String
  relationships : Option (List RelEntry)
  metadata : Option MemMetadata
  conversationId : Option String
  similarity : ℚ
  deriving DecidableEq, Repr

/-- Row-to-dictionary conversion of search_similar_patient_memories. -/
def rowToMemoryDict (r : MemoryRow) : MemoryDict :=
  ⟨r.id, r.user_id, r.entity_type, r.entity_name, r.relationships,
   r.metadata, r.conversation_id, r.similarity⟩

/-- A row returned by the PostgreSQL function search_similar_messages. -/
structure MessageRow where
  id : String
  conversation_id : Option String
  role : String
  content : String
  citations : Option (List String)
  search_results : Option String
  model : Option String
  created_at : Option String
  similarity : ℚ
  deriving DecidableEq, Repr

/-- The dictionary built from a message row by search_similar_messages
(db_operations.py lines 512-523); created_at is serialized if present. -/
structure MessageDict where
  id : String
  conversationId : Option String
  role : String
  content : String
  citations : Option (List String)
  searchResults : Option String
  model : Option String
  createdAt : Option String
  similarity : ℚ
  deriving DecidableEq, Repr

/-- Row-to-dictionary conversion of search_similar_messages. -/
def rowToMessageDict (r : MessageRow) : MessageDict :=
  ⟨r.id, r.conversation_id, r.role, r.content, r.citations,
   r.search_results, r.model, r.created_at, r.similarity⟩

/-! ## Similarity-search gateway fallback (services/db_operations.py) -/

/-- db_operations.py search_similar_patient_memories, with the two external
effects as oracles: embedResult is the outcome of generate_embedding on the
query text (Except.error models a raised exception, ok none the provider
failure swallowed inside generate_embedding) and dbRows is the outcome of
the PostgreSQL similarity query at the produced embedding.  Any exception
inside the try block yields the empty fallback list. -/
def search_similar_patient_memories
    (embedResult : Except String (Option EVec))
    (dbRows : Option EVec → Except String (List MemoryRow)) : List MemoryDict :=
  match embedResult with
  | .error _ => []
  | .ok qe =>
    match dbRows qe with
    | .error _ => []
    | .ok rows => rows.map rowToMemoryDict

/-- db_operations.py search_similar_messages, with the same oracle
treatment. -/
def search_similar_messages
    (embedResult : Except String (Option EVec))
    (dbRows : Option EVec → Except String (List MessageRow)) : List MessageDict :=
  match embedResult with
  | .error _ => []
  | .ok qe =>
    match dbRows qe with
    | .error _ => []
    | .ok rows => rows.map rowToMessageDict

/-- C5: if embedding generation raises, or the external similarity query
raises, both gateway functions return the empty list instead of propagating
the failure. -/
theorem search_similar_fallback_empty
    (embedResult : Except String (Option EVec))
    (memRows : Option EVec → Except String (List MemoryRow))
    (msgRows : Option EVec → Except String (List MessageRow)) :
    (∀ e, embedResult = Except.error e →
      search_similar_patient_memories embedResult memRows = [] ∧
      search_similar_messages embedResult msgRows = []) ∧
    (∀ qe e, embedResult = Except.ok qe → memRows qe = Except.error e →
      search_similar_patient_memories embedResult memRows = []) ∧
    (∀ qe e, embedResult = Except.ok qe → msgRows qe = Except.error e →
      search_similar_messages embedResult msgRows = []) := by
  refine ⟨fun e he => ?_, fun qe e he hr => ?_, fun qe e he hr => ?_⟩
  · subst he
    exact ⟨rfl, rfl⟩
  · subst he
    simp [search_similar_patient_memories, hr]
  · subst he
    simp [search_similar_messages, hr]

/-- Witness for C5: a raised embedding exception and a raised database
exception both produce the empty fallback list. -/
theorem search_similar_fallback_empty_witness :
    search_similar_patient_memories (Except.error "provider down")
        (fun _ => Except.ok []) = [] ∧
    search_similar_messages (Except.ok (some [1]))
        (fun _ => Except.error "db down") = [] :=
  ⟨((search_similar_fallback_empty (Except.error "provider down")
      (fun _ => Except.ok []) (fun _ => Except.ok [])).1 "provider down" rfl).1,
   (search_similar_fallback_empty (Except.ok (some [1]))
      (fun _ => Except.ok []) (fun _ => Except.error "db down")).2.2
      (some [1]) "db down" rfl rfl⟩

/-! ## Context assembly (perplexity.py, build_patient_memory_prompt_from_vector) -/

/-- A vector-search result dictionary as consumed by
build_patient_memory_prompt_from_vector; every key is read with a default,
so each field is optional. -/
structure VecSearchResult where
  entityName : Option String
  entityType : Option String
  similarity : Option ℚ
  relationships : Option (List RelEntry)
  metadata : Option MemMetadata
  deriving DecidableEq, Repr

/-- The formatted line for one search result
(build_patient_memory_prompt_from_vector, perplexity.py lines 340-360). -/
def memoryLine (r : VecSearchResult) : String :=
  let entity_name := r.entityName.getD ""
  let entity_type := r.entityType.getD ""
  let base := "- " ++ entity_name ++ " (" ++ entity_type ++ ")"
  let relParts := (r.relationships.getD []).filterMap (fun rel =>
    let t := rel.type.getD ""
    let e := rel.relatedEntity.getD ""
    if t ≠ "" ∧ e ≠ "" then some (t ++ " " ++ e) else none)
  let withRel :=
    if relParts ≠ [] then base ++ " | " ++ String.intercalate ", " relParts
    else base
  match r.metadata with
  | some md =>
    match md.description with
    | some d => withRel ++ " - " ++ d
    | none => withRel
  | none => withRel

/-- The memory_lines accumulation loop of
build_patient_memory_prompt_from_vector: results whose similarity (default
0) is below 0.7 are skipped. -/
def memoryLines : List VecSearchResult → List String
  | [] => []
  | r :: rest =>
    if r.similarity.getD 0 < 7/10 then memoryLines rest
    else memoryLine r :: memoryLines rest

/-- perplexity.py build_patient_memory_prompt_from_vector. -/
def build_patient_memory_prompt_from_vector
    (search_results : List VecSearchResult) : String :=
  if search_results = [] then ""
  else
    let lines := memoryLines search_results
    if lines = [] then ""
    else
      "\n\nRelevant Patient History (from previous conversations):\n"
        ++ String.intercalate "\n" lines
        ++ "\n\nUse this context when relevant to the current question."

/-- C6: the context assembler formats exactly the matches with similarity at
least 0.7, in input order. -/
theorem memoryLines_filters_by_similarity (rs : List VecSearchResult) :
    memoryLines rs
      = (rs.filter fun r => decide ((7:ℚ)/10 ≤ r.similarity.getD 0)).map
          memoryLine := by
  induction rs with
  | nil => rfl
  | cons r rest ih =>
    by_cases h : r.similarity.getD 0 < 7/10
    · rw [memoryLines, if_pos h, List.filter_cons]
      simp only [decide_eq_true_eq, not_le.mpr h, decide_False]
      simpa using ih
    · rw [memoryLines, if_neg h, List.filter_cons]
      simp only [decide_eq_true_eq, not_lt.mp h, decide_True]
      simp [ih]

/-! ## Batch embedding generation (embedding_service.py, generate_embeddings_batch) -/

/-- The embedding mode, fixed at initialization
(embedding_service.py MODES). -/
inductive EmbeddingMode where
  | LOCAL
  | OPENAI
  deriving DecidableEq, Repr

/-- The whitespace characters stripped by Python str.strip(). -/
def isPySpace (c : Char) : Bool :=
  c == ' ' || c == '\t' || c == '\n' || c == '\r' ||
    c == Char.ofNat 11 || c == Char.ofNat 12

/-- Python str.strip(): drop whitespace from both ends. -/
def pyStrip (s : PyStr) : PyStr :=
  ((s.dropWhile isPySpace).reverse.dropWhile isPySpace).reverse

/-- _generate_batch_local text preprocessing: t.strip() if t else "". -/
def localBatchText (t : PyStr) : PyStr :=
  if t = [] then [] else pyStrip t

/-- _generate_batch_openai text preprocessing:
t.strip()[: max_tokens * 4] if t and t.strip() else "empty". -/
def openaiBatchText (t : PyStr) : PyStr :=
  if t ≠ [] ∧ pyStrip t ≠ [] then (pyStrip t).take (openaiMaxTokens * 4)
  else "empty".toList

/-- The per-mode batch preprocessing. -/
def batchText : EmbeddingMode → PyStr → PyStr
  | .LOCAL => localBatchText
  | .OPENAI => openaiBatchText

/-- embedding_service.py generate_embeddings_batch, with the underlying batch
encoder (the sentence-transformers model or the OpenAI endpoint) as an
oracle; Except.error in the encoder models a raised exception, which the
wrapper turns into an all-none list of the input length, and Except.error in
the result models the ValueError raised on an empty input list. -/
def generate_embeddings_batch (mode : EmbeddingMode)
    (encode : List PyStr → Except String (List EVec))
    (texts : List PyStr) : Except String (List (Option EVec)) :=
  if texts = [] then Except.error "Texts list cannot be empty"
  else
    match encode (texts.map (batchText mode)) with
    | .ok embs => .ok (embs.map some)
    | .error _ => .ok (List.replicate texts.length none)

/-- A concrete encoder used by the C7 witness and counterexample: one empty
vector per input text. -/
def constEmptyEncoder (ts : List PyStr) : Except String (List EVec) :=
  Except.ok (ts.map (fun _ => []))

/-- C7 counterexample: on the empty list the batch call raises a ValueError
instead of returning a (length-zero) sequence. -/
theorem generate_embeddings_batch_empty_raises :
    generate_embeddings_batch EmbeddingMode.LOCAL constEmptyEncoder []
      = Except.error "Texts list cannot be empty" := rfl

/-- C7 (amended): for every non-empty list of texts and both modes, the batch
call returns a sequence of the same length as the input; on encoder success
it is the encoder output in order (each wrapped in some), and an encoder
failure yields a same-length all-none sequence instead of propagating. -/
theorem generate_embeddings_batch_length (mode : EmbeddingMode)
    (encode : List PyStr → Except String (List EVec)) (texts : List PyStr)
    (hne : texts ≠ [])
    (hlen : ∀ ts vs, encode ts = Except.ok vs → vs.length = ts.length) :
    ∃ out, generate_embeddings_batch mode encode texts = Except.ok out ∧
      out.length = texts.length ∧
      (∀ vs, encode (texts.map (batchText mode)) = Except.ok vs →
        out = vs.map some) ∧
      (∀ e, encode (texts.map (batchText mode)) = Except.error e →
        out = List.replicate texts.length none) := by
  unfold generate_embeddings_batch
  rw [if_neg hne]
  cases henc : encode (texts.map (batchText mode)) with
  | ok vs =>
    refine ⟨vs.map some, rfl, ?_, ?_, ?_⟩
    · rw [List.length_map, hlen _ _ henc, List.length_map]
    · intro vs' hvs'
      rw [Except.ok.inj hvs']
    · intro e he
      exact Except.noConfusion he
  | error e =>
    refine ⟨List.replicate texts.length none, rfl, List.length_replicate _ _, ?_, ?_⟩
    · intro vs' hvs'
      exact Except.noConfusion hvs'
    · intro e' _
      rfl

/-- Witness for the amended C7 theorem: a singleton batch with an encoder
that returns one empty vector per text. -/
theorem generate_embeddings_batch_length_witness :
    ∃ out, generate_embeddings_batch EmbeddingMode.LOCAL constEmptyEncoder
        [['h']] = Except.ok out ∧
      out.length = [['h']].length ∧
      (∀ vs, constEmptyEncoder ([['h']].map (batchText EmbeddingMode.LOCAL))
          = Except.ok vs → out = vs.map some) ∧
      (∀ e, constEmptyEncoder ([['h']].map (batchText EmbeddingMode.LOCAL))
          = Except.error e → out = List.replicate [['h']].length none) :=
  generate_embeddings_batch_length EmbeddingMode.LOCAL constEmptyEncoder
    [['h']]
    (by simp)
    (by
      intro ts vs h
      simp only [constEmptyEncoder, Except.ok.injEq] at h
      rw [← h, List.length_map])

/-! ## Search-result filtering (perplexity.py, call_perplexity lines 242-263) -/

/-- A raw search-result entry of the model response; missing keys are none
(every key is read with a default). -/
structure RawSearchResult where
  title : Option PyStr
  url : Option PyStr
  snippet : Option PyStr
  date : Option String
  deriving DecidableEq, Repr

/-- A filtered entry as returned by call_perplexity. -/
structure OutSearchResult where
  title : PyStr
  url : PyStr
  snippet : PyStr
  date : Option String
  deriving DecidableEq, Repr

/-- The dictionary appended for a kept entry. -/
def toOutSearchResult (r : RawSearchResult) : OutSearchResult :=
  ⟨r.title.getD [], r.url.getD [], r.snippet.getD [], r.date⟩

/-- The search_results accumulation loop of call_perplexity: an entry is kept
only when its url and title are truthy and truthy after stripping. -/
def filterSearchResults : List RawSearchResult → List OutSearchResult
  | [] => []
  | r :: rest =>
    let url := r.url.getD []
    let title := r.title.getD []
    if url ≠ [] ∧ pyStrip url ≠ [] ∧ title ≠ [] ∧ pyStrip title ≠ [] then
      toOutSearchResult r :: filterSearchResults rest
    else filterSearchResults rest

/-- An entry survives the filter exactly when both url and title are
non-empty after stripping whitespace. -/
def keptSearchResult (r : RawSearchResult) : Bool :=
  decide (pyStrip (r.url.getD []) ≠ []) && decide (pyStrip (r.title.getD []) ≠ [])

/-- C8: the returned search results are exactly the input entries whose url
and title are non-empty after stripping whitespace, in input order. -/
theorem filterSearchResults_spec (rs : List RawSearchResult) :
    filterSearchResults rs
      = (rs.filter keptSearchResult).map toOutSearchResult := by
  induction rs with
  | nil => rfl
  | cons r rest ih =>
    rw [filterSearchResults, List.filter_cons]
    by_cases hk : keptSearchResult r = true
    · have hp : pyStrip (r.url.getD []) ≠ [] ∧ pyStrip (r.title.getD []) ≠ [] := by
        simpa [keptSearchResult] using hk
      have hcond : (r.url.getD [] ≠ [] ∧ pyStrip (r.url.getD []) ≠ [] ∧
          r.title.getD [] ≠ [] ∧ pyStrip (r.title.getD []) ≠ []) :=
        ⟨fun hc => hp.1 (by rw [hc]; rfl), hp.1,
         fun hc => hp.2 (by rw [hc]; rfl), hp.2⟩
      rw [if_pos hcond, if_pos hk, List.map_cons, ih]
    · have hp : ¬(pyStrip (r.url.getD []) ≠ [] ∧ pyStrip (r.title.getD []) ≠ []) := by
        simpa [keptSearchResult] using hk
      have hcond : ¬(r.url.getD [] ≠ [] ∧ pyStrip (r.url.getD []) ≠ [] ∧
          r.title.getD [] ≠ [] ∧ pyStrip (r.title.getD []) ≠ []) := by
        intro hc
        exact hp ⟨hc.2.1, hc.2.2.2⟩
      rw [if_neg hcond, if_neg hk, ih]

/-! ## Non-fatal embedding failure on create (services/db_operations.py) -/

/-- The message row persisted by db_operations.py create_message (identifier
and timestamps, drawn from the environment, are omitted). -/
structure MessageRec where
  conversation_id : String
  role : String
  content : PyStr
  citations : Option (List String)
  search_results : Option (List RawSearchResult)
  content_embedding : Option EVec
  model : Option String
  deriving DecidableEq, Repr

/-- db_operations.py create_message: the embedding generator outcome is an
oracle (Except.error models a raised exception, ok none the provider failure
swallowed inside generate_embedding); any failure leaves the embedding
absent and the row is persisted regardless. -/
def create_message (embedOutcome : Except String (Option EVec))
    (generate_embedding : Bool) (conversation_id role : String) (content : PyStr)
    (citations : Option (List String))
    (search_results : Option (List RawSearchResult))
    (model : Option String) : MessageRec :=
  let content_embedding :=
    if generate_embedding = true ∧ content ≠ [] ∧ pyStrip content ≠ [] then
      match embedOutcome with
      | .ok v => v
      | .error _ => none
    else none
  ⟨conversation_id, role, content, citations, search_results,
   content_embedding, model⟩

/-- The memory row persisted by db_operations.py create_patient_memory. -/
structure PatientMemoryRec where
  user_id : String
  entity_type : String
  entity_name : PyStr
  relationships : Option (List RelEntry)
  entity_metadata : Option MemMetadata
  content_embedding : Option EVec
  conversation_id : Option String
  deriving DecidableEq, Repr

/-- db_operations.py create_patient_memory, with the same oracle treatment of
the embedding generator. -/
def create_patient_memory (embedOutcome : Except String (Option EVec))
    (generate_embedding : Bool) (user_id entity_type : String)
    (entity_name : PyStr) (relationships : Option (List RelEntry))
    (metadata : Option MemMetadata)
    (conversation_id : Option String) : PatientMemoryRec :=
  let content_embedding :=
    if generate_embedding = true ∧ entity_name ≠ [] ∧ pyStrip entity_name ≠ [] then
      match embedOutcome with
      | .ok v => v
      | .error _ => none
    else none
  ⟨user_id, entity_type, entity_name, relationships, metadata,
   content_embedding, conversation_id⟩

/-- C9: when embedding generation fails (raises, or returns none), both
create calls still return the persisted record with every caller-supplied
field unchanged and the embedding absent; the failure is not surfaced. -/
theorem create_entities_embedding_failure_nonfatal
    (embedOutcome : Except String (Option EVec))
    (hfail : embedOutcome = Except.ok none ∨ ∃ e, embedOutcome = Except.error e)
    (ge1 ge2 : Bool) (conversation_id role : String) (content : PyStr)
    (citations : Option (List String))
    (search_results : Option (List RawSearchResult)) (model : Option String)
    (user_id entity_type : String) (entity_name : PyStr)
    (relationships : Option (List RelEntry)) (metadata : Option MemMetadata)
    (cid2 : Option String) :
    create_message embedOutcome ge1 conversation_id role content citations
        search_results model
      = ⟨conversation_id, role, content, citations, search_results,
         none, model⟩ ∧
    create_patient_memory embedOutcome ge2 user_id entity_type entity_name
        relationships metadata cid2
      = ⟨user_id, entity_type, entity_name, relationships, metadata,
         none, cid2⟩ := by
  have hnone : (match embedOutcome with
      | Except.ok v => v
      | Except.error _ => (none : Option EVec)) = none := by
    rcases hfail with h | ⟨e, h⟩ <;> rw [h]
  constructor
  · unfold create_message
    split
    · rw [hnone]
    · rfl
  · unfold create_patient_memory
    split
    · rw [hnone]
    · rfl

/-- Witness for C9: a raised embedding exception at concrete inputs. -/
theorem create_entities_embedding_failure_nonfatal_witness :
    create_message (Except.error "provider error") true "c1" "user"
        "hello".toList none none (some "sonar-pro")
      = ⟨"c1", "user", "hello".toList, none, none, none, some "sonar-pro"⟩ ∧
    create_patient_memory (Except.error "provider error") true "u1" "condition"
        "fever".toList none none none
      = ⟨"u1", "condition", "fever".toList, none, none, none, none⟩ :=
  create_entities_embedding_failure_nonfatal (Except.error "provider error")
    (Or.inr ⟨"provider error", rfl⟩) true true "c1" "user" "hello".toList
    none none (some "sonar-pro") "u1" "condition" "fever".toList none none none

/-! ## Vector serialization (embedding_service.py, vector_to_string / string_to_vector) -/

/-- The characters stripped by str.strip of the bracket set. -/
def isBracket (c : Char) : Bool := c == '[' || c == ']'

/-- Python str.strip of the bracket character set: drop brackets from both
ends. -/
def stripBrackets (s : PyStr) : PyStr :=
  ((s.dropWhile isBracket).reverse.dropWhile isBracket).reverse

/-- Python ",".join: concatenate the pieces with a comma between. -/
def joinComma : List PyStr → PyStr
  | [] => []
  | [s] => s
  | s :: s2 :: rest => s ++ ',' :: joinComma (s2 :: rest)

/-- Python str.split(","): cut at every comma; the empty string yields one
empty piece. -/
def splitComma : PyStr → List PyStr
  | [] => [[]]
  | c :: rest =>
    if c = ',' then [] :: splitComma rest
    else
      match splitComma rest with
      | s :: ss => (c :: s) :: ss
      | [] => [[c]]

/-- Python list comprehension over a parser that may raise: the first failure
fails the whole conversion. -/
def parseAll (ofStr : PyStr → Option α) : List PyStr → Option (List α)
  | [] => some []
  | s :: rest =>
    match ofStr s, parseAll ofStr rest with
    | some x, some xs => some (x :: xs)
    | _, _ => none

/-- embedding_service.py vector_to_string, with the scalar printer str(x) as
an oracle. -/
def vector_to_string (toStr : α → PyStr) (v : List α) : PyStr :=
  '[' :: (joinComma (v.map toStr) ++ [']'])

/-- embedding_service.py string_to_vector, with the scalar parser float(x) as
an oracle (none models a raised ValueError). -/
def string_to_vector (ofStr : PyStr → Option α) (s : PyStr) : Option (List α) :=
  parseAll ofStr (splitComma (stripBrackets s))

/-- dropWhile is the identity when the head does not satisfy the
predicate. -/
lemma dropWhile_eq_self_of_head (p : Char → Bool) (l : PyStr)
    (h : ∀ c ∈ l.head?, p c = false) : l.dropWhile p = l := by
  cases l with
  | nil => rfl
  | cons a t =>
    rw [List.dropWhile_cons, h a rfl]
    simp

/-- Stripping brackets from a bracket-wrapped bracket-free non-empty string
recovers the string. -/
lemma stripBrackets_wrap (m : PyStr) (hne : m ≠ [])
    (hb : ∀ c ∈ m, isBracket c = false) :
    stripBrackets ('[' :: (m ++ [']'])) = m := by
  unfold stripBrackets
  have h1 : List.dropWhile isBracket ('[' :: (m ++ [']'])) = m ++ [']'] := by
    rw [List.dropWhile_cons]
    rw [show isBracket '[' = true from rfl]
    simp only [if_true]
    refine dropWhile_eq_self_of_head _ _ ?_
    intro c hc
    obtain ⟨a, m', rfl⟩ := List.exists_cons_of_ne_nil hne
    rw [List.cons_append, List.head?_cons] at hc
    have hac : a = c := Option.some.inj hc
    rw [← hac]
    exact hb a (List.mem_cons_self _ _)
  rw [h1, List.reverse_append, List.reverse_singleton, List.singleton_append,
    List.dropWhile_cons, show isBracket ']' = true from rfl]
  simp only [if_true]
  rw [dropWhile_eq_self_of_head _ _ ?_, List.reverse_reverse]
  intro c hc
  have : c ∈ m.reverse := List.mem_of_mem_head? hc
  exact hb c (List.mem_reverse.mp this)

/-- Splitting a comma-free string on commas yields the single piece. -/
lemma splitComma_no_comma (s : PyStr) (h : ',' ∉ s) : splitComma s = [s] := by
  induction s with
  | nil => rfl
  | cons c rest ih =>
    have hc : ¬(c = ',') := fun he => h (he ▸ List.mem_cons_self _ _)
    rw [splitComma, if_neg hc, ih (fun hm => h (List.mem_cons_of_mem _ hm))]

/-- Splitting at a comma after a comma-free piece cuts off that piece. -/
lemma splitComma_append (s t : PyStr) (h : ',' ∉ s) :
    splitComma (s ++ ',' :: t) = s :: splitComma t := by
  induction s with
  | nil =>
    rw [List.nil_append, splitComma, if_pos rfl]
  | cons c rest ih =>
    have hc : ¬(c = ',') := fun he => h (he ▸ List.mem_cons_self _ _)
    rw [List.cons_append, splitComma, if_neg hc,
      ih (fun hm => h (List.mem_cons_of_mem _ hm))]

/-- Splitting on commas inverts joining with commas for comma-free
pieces. -/
lemma splitComma_joinComma (rs : List PyStr) (hne : rs ≠ [])
    (h : ∀ r ∈ rs, ',' ∉ r) : splitComma (joinComma rs) = rs := by
  induction rs with
  | nil => exact absurd rfl hne
  | cons r rest ih =>
    cases rest with
    | nil => exact splitComma_no_comma r (h r (List.mem_cons_self _ _))
    | cons r2 rest2 =>
      rw [show joinComma (r :: r2 :: rest2) = r ++ ',' :: joinComma (r2 :: rest2)
          from rfl]
      rw [splitComma_append r _ (h r (List.mem_cons_self _ _))]
      rw [ih (by simp) (fun x hx => h x (List.mem_cons_of_mem _ hx))]

/-- Joined pieces contain only commas and characters of the pieces. -/
lemma joinComma_chars (rs : List PyStr)
    (h : ∀ r ∈ rs, ∀ c ∈ r, isBracket c = false) :
    ∀ c ∈ joinComma rs, isBracket c = false := by
  induction rs with
  | nil => intro c hc; exact absurd hc (List.not_mem_nil c)
  | cons r rest ih =>
    cases rest with
    | nil =>
      intro c hc
      exact h r (List.mem_cons_self _ _) c hc
    | cons r2 rest2 =>
      intro c hc
      rw [show joinComma (r :: r2 :: rest2) = r ++ ',' :: joinComma (r2 :: rest2)
          from rfl] at hc
      rcases List.mem_append.mp hc with hc | hc
      · exact h r (List.mem_cons_self _ _) c hc
      · rcases List.mem_cons.mp hc with rfl | hc
        · rfl
        · exact ih (fun x hx => h x (List.mem_cons_of_mem _ hx)) c hc

/-- A join of non-empty pieces is non-empty. -/
lemma joinComma_ne_nil (rs : List PyStr) (hne : rs ≠ [])
    (h : ∀ r ∈ rs, r ≠ []) : joinComma rs ≠ [] := by
  cases rs with
  | nil => exact absurd rfl hne
  | cons r rest =>
    cases rest with
    | nil => exact h r (List.mem_cons_self _ _)
    | cons r2 rest2 =>
      rw [show joinComma (r :: r2 :: rest2) = r ++ ',' :: joinComma (r2 :: rest2)
          from rfl]
      simp

/-- Parsing printed values succeeds pointwise. -/
lemma parseAll_map (ofStr : PyStr → Option α) (toStr : α → PyStr)
    (v : List α) (h : ∀ x ∈ v, ofStr (toStr x) = some x) :
    parseAll ofStr (v.map toStr) = some v := by
  induction v with
  | nil => rfl
  | cons x xs ih =>
    rw [List.map_cons, parseAll, h x (List.mem_cons_self _ _),
      ih (fun y hy => h y (List.mem_cons_of_mem _ hy))]

/-- C10: the vector serialization round-trips: for every non-empty list of
scalars whose printed forms are non-empty, comma-free and bracket-free and
parse back exactly (as Python float and str do), string_to_vector inverts
vector_to_string; for the empty list, the round-trip fails because float of
the empty string raises. -/
theorem vector_string_roundtrip (toStr : α → PyStr) (ofStr : PyStr → Option α)
    (v : List α)
    (hrep : ∀ x ∈ v, toStr x ≠ [] ∧ ',' ∉ toStr x ∧
        (∀ c ∈ toStr x, isBracket c = false) ∧ ofStr (toStr x) = some x)
    (hempty : ofStr [] = none) :
    (v ≠ [] → string_to_vector ofStr (vector_to_string toStr v) = some v) ∧
    string_to_vector ofStr (vector_to_string toStr ([] : List α)) = none := by
  constructor
  · intro hv
    unfold string_to_vector vector_to_string
    have hmapne : v.map toStr ≠ [] := by
      simpa using hv
    have hjoin_ne : joinComma (v.map toStr) ≠ [] := by
      refine joinComma_ne_nil _ hmapne ?_
      intro r hr
      obtain ⟨x, hx, rfl⟩ := List.mem_map.mp hr
      exact (hrep x hx).1
    have hjoin_chars : ∀ c ∈ joinComma (v.map toStr), isBracket c = false := by
      refine joinComma_chars _ ?_
      intro r hr
      obtain ⟨x, hx, rfl⟩ := List.mem_map.mp hr
      exact (hrep x hx).2.2.1
    rw [stripBrackets_wrap _ hjoin_ne hjoin_chars]
    rw [splitComma_joinComma _ hmapne ?_]
    · exact parseAll_map ofStr toStr v (fun x hx => (hrep x hx).2.2.2)
    · intro r hr
      obtain ⟨x, hx, rfl⟩ := List.mem_map.mp hr
      exact (hrep x hx).2.1
  · unfold string_to_vector vector_to_string
    rw [show stripBrackets ('[' :: (joinComma (List.map toStr []) ++ [']'])) = []
        from rfl]
    rw [show splitComma ([] : PyStr) = [[]] from rfl]
    rw [parseAll, hempty]

/-- A concrete scalar printer for the C10 witness. -/
def natToStrW (n : Nat) : PyStr := if n = 0 then ['0'] else ['1']

/-- A concrete scalar parser for the C10 witness. -/
def natOfStrW (s : PyStr) : Option Nat :=
  if s = ['0'] then some 0 else if s = ['1'] then some 1 else none

/-- Witness for C10: round-trip at a concrete two-element vector. -/
theorem vector_string_roundtrip_witness :
    string_to_vector natOfStrW (vector_to_string natToStrW [0, 1])
      = some [0, 1] :=
  (vector_string_roundtrip natToStrW natOfStrW [0, 1] (by decide) (by decide)).1
    (by decide)
